import Mathlib

/-
Verification of the Semilattice press-release scorer and headline tester.

This file gives a shallow embedding of the polling / score-aggregation core:
  * src/press_release_scorer/services.py  (PressReleaseScoringService)
  * src/press_release_scorer/constants.py (the fixed 30-question rubric)
  * src/press_release_scorer/models.py    (PressReleaseScore / CategoryScore / QuestionScore)
  * src/headline_tester/services.py       (HeadlineTestingService)
  * src/headline_tester/models.py         (HeadlineTest / HeadlineScore)

Python strings are modelled as `String` or `List Char`; Django IntegerFields as `Int`;
FloatFields as `Rat`; nullable fields as `Option`.  The external Semilattice client
(qa_app/services.py) is modelled as a behaviour oracle: each call site receives the
outcome the client would have produced (a result dictionary, or a raised exception),
so the service code is a deterministic function of the persisted state and of that
oracle.  Persistence is autocommit, as in the source (no transaction blocks): writes
performed before an exception remain visible.
-/

/-! ## Text utilities (press_release_scorer/services.py) -/

/-- The characters of the ellipsis marker `"..."` appended by truncation. -/
def ellipsisChars : List Char := ['.', '.', '.']

/-- Everything strictly before the last space of the list, when a space occurs:
the semantics of Python `text.rsplit(' ', 1)[0]` restricted to the case where the
separator is present (`none` when no space occurs, in which case Python returns
the whole string). -/
def beforeLastSpace : List Char → Option (List Char)
  | [] => none
  | c :: cs =>
    match beforeLastSpace cs with
    | some r => some (c :: r)
    | none => if c = ' ' then some [] else none

/-- Function `_truncate_press_release` from press_release_scorer/services.py: texts of
length at most `max_length` are returned unchanged; longer texts are cut to the
`max_length`-character prefix, the final (possibly partial) word after the last
space is dropped via `rsplit(' ', 1)[0]`, and `"..."` is appended. -/
def truncate_press_release (text : List Char) (max_length : Nat) : List Char :=
  if text.length ≤ max_length then text
  else
    match beforeLastSpace (text.take max_length) with
    | some r => r ++ ellipsisChars
    | none => text.take max_length ++ ellipsisChars

/-- Collapse every run of consecutive spaces to a single space
(the `re.sub(r'\s+', ' ', ...)` step after newlines, carriage returns and tabs
have been mapped to spaces). -/
def collapseSpaces : List Char → List Char
  | [] => []
  | [c] => [c]
  | c :: d :: rest =>
    if c = ' ' ∧ d = ' ' then collapseSpaces (d :: rest)
    else c :: collapseSpaces (d :: rest)

/-- Function `_clean_press_release_text` from press_release_scorer/services.py: newlines,
carriage returns and tabs become spaces, whitespace runs collapse to one space,
and leading/trailing whitespace is stripped. -/
def clean_press_release_text (text : List Char) : List Char :=
  let mapped := text.map (fun c => if c = '\n' ∨ c = '\r' ∨ c = '\t' then ' ' else c)
  let collapsed := collapseSpaces mapped
  ((collapsed.dropWhile (fun c => c = ' ')).reverse.dropWhile (fun c => c = ' ')).reverse

/-! ## Score extraction (press_release_scorer/services.py) -/

/-- Accumulate a digit string into a natural number. -/
def digitsToNat : List Char → Nat → Nat
  | [], acc => acc
  | c :: cs, acc => digitsToNat cs (acc * 10 + (c.toNat - 48))

/-- Python `int(s)` on an option label: an optional sign followed by digits
parses to the integer, anything else raises `ValueError` (modelled as `none`).
Pythonic extras such as surrounding whitespace or digit-group underscores do
not occur in answer-option labels and are not modelled. -/
def parsePyInt (s : String) : Option Int :=
  match s.toList with
  | [] => none
  | '-' :: rest =>
    if rest ≠ [] ∧ rest.all Char.isDigit then some (-(digitsToNat rest 0 : Int)) else none
  | '+' :: rest =>
    if rest ≠ [] ∧ rest.all Char.isDigit then some ((digitsToNat rest 0 : Int)) else none
  | cs =>
    if cs.all Char.isDigit then some ((digitsToNat cs 0 : Int)) else none

/-- The body of Python `int(option)` guarded by `try/except`, as used in
`_extract_score_from_response`: the parsed integer, or the default 3 when the
option label does not parse. -/
def parseOptionOr3 (o : String) : Int :=
  match parsePyInt o with
  | some k => k
  | none => 3

/-- The scanning loop of `_extract_score_from_response`: walks the percentage
map in iteration order carrying `max_percentage` (initially 0) and
`winning_score` (initially 3), updating both whenever a strictly larger
percentage is found. -/
def scoreLoop : List (String × Rat) → Rat → Int → Rat × Int
  | [], m, w => (m, w)
  | (o, p) :: rest, m, w =>
    if p > m then scoreLoop rest p (parseOptionOr3 o)
    else scoreLoop rest m w

/-- Function `_extract_score_from_response` from press_release_scorer/services.py,
as a function of the `simulated_answer_percentages` field of the API response
(`none` models an absent field; Python dict iteration order is insertion order,
modelled by the list order).  Returns 3 when percentages are absent or empty,
otherwise runs the scanning loop and clamps an out-of-range winner to 3. -/
def extract_score_from_response (percentages : Option (List (String × Rat))) : Int :=
  match percentages with
  | none => 3
  | some ps =>
    if ps = [] then 3
    else
      let r := scoreLoop ps 0 3
      if 1 ≤ r.2 ∧ r.2 ≤ 6 then r.2 else 3

/-! ## The rubric (press_release_scorer/constants.py) -/

structure RubricCategory where
  key : String
  display_name : String
  questions : List String
deriving DecidableEq, Repr

/-- Constant `PRESS_RELEASE_QUESTIONS` from press_release_scorer/constants.py: the fixed
ordered rubric of 5 categories with 6 questions each (dict insertion order). -/
def PRESS_RELEASE_QUESTIONS : List RubricCategory :=
  [ { key := "source_credibility", display_name := "Source Credibility", questions :=
      [ "To what extent is the issuer reputable and trustworthy (1 = no credibility, 6 = highly reputable and trusted)?"
      , "How transparent is the organization about its identity (1 = unclear/hidden, 6 = fully transparent)?"
      , "How reliable is the organization's history of accuracy and honesty (1 = frequently inaccurate, 6 = consistently accurate)?"
      , "How accessible and verifiable is the point of contact provided (1 = no contact/unverifiable, 6 = clear, responsive, and verifiable)?"
      , "How credible and relevant are the experts or references cited (1 = none/irrelevant, 6 = highly credible and relevant)?"
      , "How appropriate is the timing of the release (1 = appears manipulative/self-serving, 6 = timely and appropriate)?" ] }
  , { key := "accuracy_evidence", display_name := "Accuracy & Evidence", questions :=
      [ "How well are the stated facts supported by verifiable data (1 = unsupported, 6 = fully verifiable with strong data)?"
      , "How clearly are statistics sourced and methodologies explained (1 = no sources/methods, 6 = full transparency and clarity)?"
      , "How much independent confirmation supports the claims (1 = none, 6 = multiple independent confirmations)?"
      , "How authentic and attributable are the included quotes (1 = vague/anonymous, 6 = verifiable and clearly attributable)?"
      , "How much solid evidence, rather than vague assertions, is included (1 = only broad claims, 6 = strong, detailed evidence)?"
      , "How precise and free from vague or misleading language is the text (1 = very vague/misleading, 6 = precise and transparent)?" ] }
  , { key := "newsworthiness", display_name := "Newsworthiness", questions :=
      [ "How significant is the information to genuine public interest (1 = trivial, 6 = highly significant)?"
      , "How timely and relevant is the information to current events (1 = outdated/irrelevant, 6 = extremely timely and relevant)?"
      , "How relevant is the announcement to your target audience (1 = not relevant, 6 = highly relevant)?"
      , "How new, unique, or impactful is the development (1 = no novelty/impact, 6 = groundbreaking and impactful)?"
      , "How substantial are the potential long-term implications (1 = minimal/none, 6 = highly substantial)?"
      , "How broad is the scope of the story (1 = very limited, 6 = global or wide-scale significance)?" ] }
  , { key := "bias_intent", display_name := "Bias & Intent", questions :=
      [ "How balanced and informative, rather than purely promotional, is the content (1 = purely promotional, 6 = fully balanced and informative)?"
      , "How transparent is it about who benefits from the announcement (1 = no clarity, 6 = full transparency)?"
      , "How complete is the information with minimal omissions (1 = key details missing, 6 = comprehensive and complete)?"
      , "How neutral and objective is the framing (1 = heavily biased, 6 = entirely neutral and objective)?"
      , "How free is the language from emotional manipulation (1 = highly manipulative, 6 = free of manipulation)?"
      , "How well does it acknowledge alternative perspectives or counterarguments (1 = none acknowledged, 6 = well represented)?" ] }
  , { key := "practicality_next_steps", display_name := "Practicality & Next Steps", questions :=
      [ "How clear and actionable is the practical information (dates, events, availability) (1 = unclear/unusable, 6 = highly clear and actionable)?"
      , "How easy is it to independently verify key claims (1 = not verifiable, 6 = very easy to verify)?"
      , "How strong is the availability of supporting materials (reports, images, links) (1 = none provided, 6 = extensive and useful)?"
      , "How clear and accessible is the writing for a general audience (1 = confusing/unclear, 6 = very clear and accessible)?"
      , "How much further investigation or follow-up is required (1 = major gaps requiring full investigation, 6 = minimal follow-up needed)?"
      , "How much does the content read as genuine news rather than PR spin (1 = pure PR spin, 6 = genuine news value)?" ] }
  ]

/-- From `_category_and_index_from_global_qn`: the category position of global
question number `qn` (1-30) is `(qn - 1) / 6`. -/
def categoryIndexOfQn (qn : Nat) : Nat := (qn - 1) / 6

/-- The in-category index of global question number `qn` is `(qn - 1) % 6`. -/
def indexInCategoryOfQn (qn : Nat) : Nat := (qn - 1) % 6

/-- The base rubric question text for global question number `qn`
(`category_meta['questions'][index_in_category]`). -/
def baseQuestion (qn : Nat) : String :=
  match PRESS_RELEASE_QUESTIONS.get? (categoryIndexOfQn qn) with
  | some cat =>
    match cat.questions.get? (indexInCategoryOfQn qn) with
    | some q => q
    | none => ""
  | none => ""

/-! ## The Semilattice client as a behaviour oracle (qa_app/services.py)

`simulate_answer` and `poll_until_complete` always return dictionaries in normal
operation, but any of their internals may raise; both possibilities are captured
by an outcome value supplied to the service under test. -/

/-- The fields of the dictionary returned by `SemilatticeAPIClient.simulate_answer`
that the scoring services inspect. -/
structure SimResult where
  success : Bool
  answer_id : Option String
deriving DecidableEq, Repr

/-- Outcome of a call to `simulate_answer`: a returned dictionary, or a raised
exception with its text. -/
inductive SubmitBeh where
  | ok (sr : SimResult)
  | exc (msg : String)
deriving DecidableEq, Repr

/-- The fields of the dictionary returned by `poll_until_complete` /
`get_answer_status` that the scoring services inspect.  `simulated_answer_percentages`
is the insertion-ordered percentage map (absent outside `Predicted` results). -/
structure PollResult where
  success : Bool
  status : Option String
  simulated_answer_percentages : Option (List (String × Rat))
deriving DecidableEq, Repr

/-- Outcome of a call to `poll_until_complete`: a returned dictionary, or a raised
exception with its text. -/
inductive PollBeh where
  | ok (pr : PollResult)
  | exc (msg : String)
deriving DecidableEq, Repr

/-- The client outcomes available to one service invocation: what `simulate_answer`
would produce if called, and what `poll_until_complete` would produce if called. -/
structure StepBeh where
  submit : SubmitBeh
  poll : PollBeh
deriving DecidableEq, Repr

/-- Python truthiness of an optional string, as tested by
`not sim.get("answer_id")` / `result.get('answer_id')`: an absent id and an
empty-string id are both falsy. -/
def answerIdBlank (o : Option String) : Bool :=
  o.getD "" == ""

/-! ## Persisted state (press_release_scorer/models.py) -/

/-- One `QuestionScore` row: the base question text, the 1-6 score (null until
resolved), the Semilattice answer id (set once submission succeeds) and the raw
poll response kept for audit. -/
structure QuestionRec where
  question_text : String
  score : Option Int
  semilattice_answer_id : Option String
  raw_response : Option PollResult
deriving DecidableEq, Repr

/-- One `PressReleaseScore` job together with its `CategoryScore` and
`QuestionScore` children.  `cats i` is the subtotal of the lazily created
`CategoryScore` row for the i-th rubric category (`none` while the row does not
exist); `questions n` is the `QuestionScore` row for global question number `n`
(`none` while no row exists).  `total_score` and `processed_questions` are the
job's running aggregates. -/
structure JobState where
  press_release_text : List Char
  population_id : String
  total_score : Int
  status : String
  processed_questions : Int
  error_message : Option String
  cats : Fin 5 → Option Int
  questions : Nat → Option QuestionRec

/-- Replace the `QuestionScore` row for question number `n`. -/
def setQuestion (st : JobState) (n : Nat) (q : QuestionRec) : JobState :=
  { st with questions := fun m => if m = n then some q else st.questions m }

/-- Replace the `CategoryScore` subtotal for category `i`. -/
def setCat (st : JobState) (i : Fin 5) (v : Option Int) : JobState :=
  { st with cats := fun j => if j = i then v else st.cats j }

/-- Django `CategoryScore.objects.get_or_create(..., defaults={'score': 0})`: create the
category row with subtotal 0 when absent. -/
def ensureCat (st : JobState) (i : Fin 5) : JobState :=
  if (st.cats i).isSome then st else setCat st i (some 0)

/-- The numeric subtotal of category `i` (0 when the row does not exist yet). -/
def catVal (st : JobState) (i : Fin 5) : Int :=
  (st.cats i).getD 0

/-- The persisted score of question `n`, as counted by aggregate sums
(0 when the row does not exist or its score is still null). -/
def persistedScore (st : JobState) (n : Nat) : Int :=
  ((st.questions n).bind (fun q => q.score)).getD 0

/-- Whether question `n` has a persisted non-null score. -/
def isResolved (st : JobState) (n : Nat) : Bool :=
  ((st.questions n).bind (fun q => q.score)).isSome

/-! ## The incremental scoring step (press_release_scorer/services.py) -/

/-- The dictionary returned by a successful `process_question_step` call:
`{"pending": ..., "done": ..., "question_score": ...}`. -/
structure StepOutput where
  pending : Bool
  done : Bool
  question_score : Option Int
deriving DecidableEq, Repr

/-- Result of one `process_question_step` invocation: a returned dictionary or a
propagated exception with its text. -/
inductive StepResult where
  | ok (out : StepOutput)
  | exc (msg : String)
deriving DecidableEq, Repr

/-- External calls actually performed by one invocation: whether
`simulate_answer` was called, and which answer id (if any) was passed to
`poll_until_complete`. -/
structure StepTrace where
  submitted : Bool
  polled : Option String
deriving DecidableEq, Repr

/-- The polling tail of `process_question_step`, reached with the answer id
`aid` stored on row `q` (whose score is still null): polls, and on a successful
`Predicted` result extracts the score, persists it, and updates the category
subtotal, job total, processed count and job status; any other poll outcome
returns pending.  `didSubmit` records whether this invocation performed the
submission. -/
def stepPoll (st : JobState) (qn : Nat) (catIdx : Fin 5) (q : QuestionRec)
    (aid : String) (poll : PollBeh) (didSubmit : Bool) :
    JobState × StepResult × StepTrace :=
  match poll with
  | .exc m => (st, .exc m, ⟨didSubmit, some aid⟩)
  | .ok pr =>
    if pr.success && pr.status == some "Predicted" then
      let score_val := extract_score_from_response pr.simulated_answer_percentages
      let st1 := setQuestion st qn { q with score := some score_val, raw_response := some pr }
      let st2 := setCat st1 catIdx (some (catVal st1 catIdx + score_val))
      let st3 := { st2 with
        total_score := st2.total_score + score_val,
        processed_questions := st2.processed_questions + 1,
        status := if st2.processed_questions + 1 ≥ 30 then "done" else "running" }
      (st3, .ok ⟨false, true, some score_val⟩, ⟨didSubmit, some aid⟩)
    else
      (st, .ok ⟨true, false, none⟩, ⟨didSubmit, some aid⟩)

/-- The submission-or-poll tail of `process_question_step`, reached with the
question row `q` present and its score still null.  When no answer id is stored
it calls `simulate_answer` (the submitted question text is built from the
cleaned, truncated press release; it is passed to the client and not persisted,
so it is not recorded here): a raised exception propagates, a failed result or
blank answer id returns pending, and a fresh answer id is stored before polling.
When an answer id is already stored, it resumes polling that id without
resubmitting. -/
def stepContinue (st : JobState) (qn : Nat) (catIdx : Fin 5) (q : QuestionRec)
    (beh : StepBeh) : JobState × StepResult × StepTrace :=
  match q.semilattice_answer_id with
  | none =>
    match beh.submit with
    | .exc m => (st, .exc m, ⟨true, none⟩)
    | .ok sr =>
      if !sr.success || answerIdBlank sr.answer_id then
        (st, .ok ⟨true, false, none⟩, ⟨true, none⟩)
      else
        let aid := sr.answer_id.getD ""
        let q1 := { q with semilattice_answer_id := some aid }
        stepPoll (setQuestion st qn q1) qn catIdx q1 aid beh.poll true
  | some aid => stepPoll st qn catIdx q aid beh.poll false

/-- Function `process_question_step` from press_release_scorer/services.py: start or
continue processing question `qn` with a short bounded wait.  Out-of-range
question numbers raise `ValueError` before any write; otherwise the category row
is created if needed, an already-scored question returns immediately, a missing
question row is created with a null score, and processing continues with
submission and/or polling as recorded by the trace. -/
def process_question_step (st : JobState) (qn : Nat) (beh : StepBeh) :
    JobState × StepResult × StepTrace :=
  if h : 1 ≤ qn ∧ qn ≤ 30 then
    let catIdx : Fin 5 := ⟨categoryIndexOfQn qn, by
      have := h.1; have := h.2; unfold categoryIndexOfQn; omega⟩
    let st1 := ensureCat st catIdx
    match st.questions qn with
    | some q =>
      match q.score with
      | some s => (st1, .ok ⟨false, true, some s⟩, ⟨false, none⟩)
      | none => stepContinue st1 qn catIdx q beh
    | none =>
      let q : QuestionRec := ⟨baseQuestion qn, none, none, none⟩
      stepContinue (setQuestion st1 qn q) qn catIdx q beh
  else (st, .exc "question_number must be between 1 and 30", ⟨false, none⟩)

/-! ## One-shot question scoring (press_release_scorer/services.py) -/

/-- Function `_get_question_score` from press_release_scorer/services.py: submits the
question, polls up to 60 seconds, and extracts the 1-6 score; every failure path
(submission exception or failed submission, polling exception or failed poll,
or a terminal status other than `Predicted`) returns the default middle score 3. -/
def get_question_score (beh : StepBeh) : Int :=
  match beh.submit with
  | .exc _ => 3
  | .ok sr =>
    if sr.success then
      match beh.poll with
      | .exc _ => 3
      | .ok pr =>
        if pr.success then
          if pr.status == some "Predicted" then
            extract_score_from_response pr.simulated_answer_percentages
          else 3
        else 3
    else 3

/-- Function `score_single_question` from press_release_scorer/services.py: processes one
question end to end and persists the result incrementally.  Out-of-range numbers
raise `ValueError`; an existing `QuestionScore` row short-circuits (returning its
score, which may be null); otherwise the category row is ensured, the score is
obtained from `_get_question_score` (never failing), persisted, and the category
subtotal, job total, processed count and status are updated. -/
def score_single_question (st : JobState) (qn : Nat) (beh : StepBeh) :
    JobState × Except String (Option Int) :=
  if h : 1 ≤ qn ∧ qn ≤ 30 then
    match st.questions qn with
    | some q => (st, .ok q.score)
    | none =>
      let catIdx : Fin 5 := ⟨categoryIndexOfQn qn, by
        have := h.1; have := h.2; unfold categoryIndexOfQn; omega⟩
      let st1 := ensureCat st catIdx
      let score := get_question_score beh
      let st2 := setQuestion st1 qn ⟨baseQuestion qn, some score, none, none⟩
      let st3 := setCat st2 catIdx (some (catVal st2 catIdx + score))
      let st4 := { st3 with
        total_score := st3.total_score + score,
        processed_questions := st3.processed_questions + 1,
        status := if st3.processed_questions + 1 ≥ 30 then "done" else "running" }
      (st4, .ok (some score))
  else (st, .error "question_number must be between 1 and 30")

/-- Modelled from the spec: the step endpoint view behind
`press-release-scorer/process-question-step/` is routed in
press_release_scorer/urls.py but its body is absent from src/ (views.py contains
only the synchronous pages).  Per the spec's failure semantics, unexpected
exceptions during a step mark the owning ScoringJob `failed` with the exception
text recorded; a normal step result is passed through unchanged. -/
def process_question_step_view (st : JobState) (qn : Nat) (beh : StepBeh) :
    JobState × StepResult × StepTrace :=
  match process_question_step st qn beh with
  | (st1, .exc msg, tr) =>
    ({ st1 with status := "failed", error_message := some msg }, .exc msg, tr)
  | r => r

/-! ## Headline tester (headline_tester/services.py, headline_tester/models.py) -/

/-- One `HeadlineScore` row: the headline text, whether it is the original
headline, the per-row status, and the weighted preference score (null until
resolved).  `detailed_scores` and the timestamps are audit-only JSON/metadata
and are not modelled. -/
structure HScore where
  headline_text : String
  is_original : Bool
  status : String
  total_score : Option Rat
deriving DecidableEq, Repr

/-- One `HeadlineTest` row with its `HeadlineScore` children in creation order. -/
structure HTest where
  status : String
  scores : List HScore
  winning_headline : Option String
  winning_score : Option Rat
  original_score : Option Rat
  improvement_percentage : Option Rat
  error_message : Option String
deriving DecidableEq, Repr

/-- The five-point ordinal mapping `preference_values` of
`_extract_preference_score`, with `.get(answer, 3)` defaulting unknown labels
to neutral. -/
def preference_value (answer : String) : Rat :=
  if answer = "Very Appealing" then 5
  else if answer = "Appealing" then 4
  else if answer = "Neutral" then 3
  else if answer = "Not Appealing" then 2
  else if answer = "Very Unappealing" then 1
  else 3

/-- The accumulation loop of `_extract_preference_score`: running
`total_score` (sum of value times percentage) and `total_percentage`. -/
def prefLoop : List (String × Rat) → Rat → Rat → Rat × Rat
  | [], ts, tp => (ts, tp)
  | (a, p) :: rest, ts, tp => prefLoop rest (ts + preference_value a * p) (tp + p)

/-- Round to `d` decimal places (half rounds up), modelling Python `round(x, d)`
over the rationals; Python's float `round` breaks exact halves to even, a
difference only at exact midpoints. -/
def roundTo (d : Nat) (q : Rat) : Rat :=
  ((⌊q * (10 : Rat) ^ d + 1 / 2⌋ : Int) : Rat) / (10 : Rat) ^ d

/-- Function `_extract_preference_score` from headline_tester/services.py, as a function
of the `simulated_answer_percentages` field of the poll result: the weighted
average of the ordinal values by percentage, rounded to 2 decimals, when
percentages are present, non-empty and of positive total weight; the neutral
3.0 otherwise. -/
def extract_preference_score (percentages : Option (List (String × Rat))) : Rat :=
  match percentages with
  | none => 3
  | some ps =>
    if ps = [] then 3
    else
      let r := prefLoop ps 0 0
      if 0 < r.2 then roundTo 2 (r.1 / r.2) else 3

/-- Function `_set_fallback_score` from headline_tester/services.py: when Semilattice
testing fails, the record is completed with the neutral preference 3.0. -/
def set_fallback_score (rec : HScore) : HScore :=
  { rec with total_score := some 3, status := "completed" }

/-- Function `_test_single_headline_simple` from headline_tester/services.py: marks the
record running, submits the preference question, polls up to 60 seconds, and on
a successful `Predicted` result stores the extracted preference score and
completes the record; every failure path (exception, failed or id-less
submission, failed poll, non-Predicted status) falls back to the neutral score. -/
def test_single_headline_simple (rec : HScore) (beh : StepBeh) : HScore :=
  let r := { rec with status := "running" }
  match beh.submit with
  | .exc _ => set_fallback_score r
  | .ok sr =>
    if sr.success && !answerIdBlank sr.answer_id then
      match beh.poll with
      | .exc _ => set_fallback_score r
      | .ok pr =>
        if pr.success && pr.status == some "Predicted" then
          { r with
            total_score := some (extract_preference_score pr.simulated_answer_percentages),
            status := "completed" }
        else set_fallback_score r
    else set_fallback_score r

/-- Comparison of two nullable scores as ordered by the database in
`order_by('-total_score')` (a null score sorts below every numeric score,
matching SQLite's NULLS-smallest ordering). -/
def optScoreLt : Option Rat → Option Rat → Bool
  | none, none => false
  | none, some _ => true
  | some _, none => false
  | some a, some b => a < b

/-- Django `queryset.order_by('-total_score').first()` over a creation-ordered list:
the first record achieving the maximal score (ties keep the earliest-created
record, modelling the descending sort as stable on insertion order). -/
def firstMaxByScore : List HScore → Option HScore
  | [] => none
  | a :: rest =>
    match firstMaxByScore rest with
    | none => some a
    | some b => if optScoreLt a.total_score b.total_score then some b else some a

/-- Function `_check_and_update_test_completion` from headline_tester/services.py: once a
test in status `testing` has every score row completed or failed (and at least
one row), the test is completed; the winner is the best-scoring completed row,
and when a completed original row with a positive score exists the improvement
percentage over the original is recorded, rounded to 1 decimal.  (In the two
`none` fallthrough branches below the Python would raise on a null winner score;
they are unreachable for completed rows, which always carry a score.) -/
def check_and_update_test_completion (t : HTest) : HTest :=
  if t.status ≠ "testing" then t
  else
    let total := t.scores.length
    let completed := t.scores.filter (fun s => s.status == "completed")
    let failedCount := (t.scores.filter (fun s => s.status == "failed")).length
    if completed.length + failedCount ≥ total ∧ 0 < total then
      let t1 := { t with status := "completed" }
      let best := firstMaxByScore completed
      let t2 :=
        match best with
        | some b => { t1 with winning_headline := some b.headline_text, winning_score := b.total_score }
        | none => t1
      match firstMaxByScore (completed.filter (fun s => s.is_original)) with
      | some o =>
        match o.total_score with
        | some oq =>
          let t3 := { t2 with original_score := some oq }
          if 0 < oq then
            match best with
            | some b =>
              match b.total_score with
              | some w =>
                { t3 with improvement_percentage := some (roundTo 1 ((w - oq) / oq * 100)) }
              | none => t3
            | none => t3
          else t3
        | none => t2
      | none => t2
    else t

/-- The full write block of the `Predicted` branch of `process_question_step`:
question `qn` gets the extracted score and raw response persisted, the category
subtotal and job total grow by the score, the processed count grows by one, and
the job status becomes `done` once 30 questions are processed. -/
def resolveUpdate (st : JobState) (qn : Nat) (catIdx : Fin 5) (q : QuestionRec)
    (pr : PollResult) : JobState :=
  let v := extract_score_from_response pr.simulated_answer_percentages
  { setCat (setQuestion st qn { q with score := some v, raw_response := some pr }) catIdx
      (some (catVal st catIdx + v)) with
    total_score := st.total_score + v,
    processed_questions := st.processed_questions + 1,
    status := if st.processed_questions + 1 ≥ 30 then "done" else "running" }

/-! ## Invariants and failure predicates -/

/-- The number of questions with a persisted non-null score. -/
def resolvedCount (st : JobState) : Nat :=
  ((Finset.Icc 1 30).filter (fun n => isResolved st n = true)).card

/-- The consistency invariant of a press-release scoring job: the running total
equals the sum of the category subtotals and the sum of the persisted question
scores, the processed count equals the number of resolved questions (hence
never exceeds 30), and the job is `done` exactly when all 30 are processed. -/
def JobInv (st : JobState) : Prop :=
  st.total_score = ∑ i : Fin 5, catVal st i ∧
  st.total_score = ∑ n in Finset.Icc 1 30, persistedScore st n ∧
  st.processed_questions = (resolvedCount st : Int) ∧
  st.processed_questions ≤ 30 ∧
  (st.status = "done" ↔ st.processed_questions = 30)

instance (st : JobState) : Decidable (JobInv st) := by
  unfold JobInv
  infer_instance

/-- The client outcomes under which `process_question_step` cannot resolve the
question: with no stored answer id, the submission returns unsuccessfully or
without a usable answer id, or the submission succeeds but the poll returns a
non-`Predicted` result; with a stored answer id, the poll returns a
non-`Predicted` result.  (Raised exceptions are excluded: they propagate
instead of returning a pending dictionary.) -/
def pollNotPredicted : PollBeh → Bool
  | .ok pr => !(pr.success && pr.status == some "Predicted")
  | .exc _ => false

/-- Submission phase outcome when no answer id is stored: a raised submission
propagates (not a pending return), a failed or id-less submission is pending,
and otherwise pendingness is decided by the poll outcome. -/
def submitThenPollPending : SubmitBeh → PollBeh → Bool
  | .exc _, _ => false
  | .ok sr, poll =>
    if !sr.success || answerIdBlank sr.answer_id then true else pollNotPredicted poll

def stepNonResolving (st : JobState) (qn : Nat) (beh : StepBeh) : Bool :=
  match (st.questions qn).bind (fun q => q.semilattice_answer_id) with
  | none => submitThenPollPending beh.submit beh.poll
  | some _ => pollNotPredicted beh.poll

/-- The client outcomes on which `_get_question_score` falls back to the
default score: the submission raises or returns unsuccessfully, or the poll
raises, returns unsuccessfully, or ends with a status other than `Predicted`. -/
def clientFailure (beh : StepBeh) : Bool :=
  match beh.submit with
  | .exc _ => true
  | .ok sr =>
    if sr.success then
      match beh.poll with
      | .exc _ => true
      | .ok pr => !pr.success || !(pr.status == some "Predicted")
    else true

/-! ## Lemmas about score extraction -/

lemma scoreLoop_no_update : ∀ (l : List (String × Rat)) (m : Rat) (w : Int),
    (∀ q ∈ l, q.2 ≤ m) → scoreLoop l m w = (m, w) := by
  intro l
  induction l with
  | nil => intro m w _; rfl
  | cons q rest ih =>
    intro m w h
    obtain ⟨o, p⟩ := q
    have hp : p ≤ m := h (o, p) (List.mem_cons_self _ _)
    simp only [scoreLoop, if_neg (not_lt.mpr hp)]
    exact ih m w (fun q hq => h q (List.mem_cons_of_mem _ hq))

lemma scoreLoop_first_max : ∀ (l₁ : List (String × Rat)) (o : String) (p : Rat)
    (l₂ : List (String × Rat)) (m : Rat) (w : Int), m < p →
    (∀ q ∈ l₁, q.2 < p) → (∀ q ∈ l₂, q.2 ≤ p) →
    scoreLoop (l₁ ++ (o, p) :: l₂) m w = (p, parseOptionOr3 o) := by
  intro l₁
  induction l₁ with
  | nil =>
    intro o p l₂ m w hm _ h2
    simp only [List.nil_append, scoreLoop, if_pos hm]
    exact scoreLoop_no_update l₂ p (parseOptionOr3 o) h2
  | cons q rest ih =>
    intro o p l₂ m w hm h1 h2
    obtain ⟨o1, p1⟩ := q
    have hp1 : p1 < p := h1 (o1, p1) (List.mem_cons_self _ _)
    have h1' : ∀ q ∈ rest, q.2 < p := fun q hq => h1 q (List.mem_cons_of_mem _ hq)
    simp only [List.cons_append, scoreLoop]
    by_cases hcase : m < p1
    · rw [if_pos hcase]
      exact ih o p l₂ p1 (parseOptionOr3 o1) hp1 h1' h2
    · rw [if_neg hcase]
      exact ih o p l₂ m w hm h1' h2

/-! ## Lemmas about truncation -/

lemma beforeLastSpace_eq_none : ∀ (l : List Char),
    beforeLastSpace l = none ↔ ' ' ∉ l := by
  intro l
  induction l with
  | nil => simp [beforeLastSpace]
  | cons c cs ih =>
    cases h : beforeLastSpace cs with
    | some r =>
      have hmem : ' ' ∈ cs := by
        by_contra hno
        rw [ih.mpr hno] at h
        cases h
      simp [beforeLastSpace, h, List.mem_cons, hmem]
    | none =>
      have hno : ' ' ∉ cs := ih.mp h
      by_cases hc : c = ' '
      · simp [beforeLastSpace, h, hc]
      · simp [beforeLastSpace, h, hc, hno, Ne.symm hc]

lemma beforeLastSpace_eq_some : ∀ (l : List Char) (r : List Char),
    beforeLastSpace l = some r → ∃ rest, l = r ++ ' ' :: rest ∧ ' ' ∉ rest := by
  intro l
  induction l with
  | nil => intro r h; cases h
  | cons c cs ih =>
    intro r h
    simp only [beforeLastSpace] at h
    cases hcs : beforeLastSpace cs with
    | some r0 =>
      rw [hcs] at h
      simp only [Option.some.injEq] at h
      obtain ⟨rest, hdec, hno⟩ := ih r0 hcs
      refine ⟨rest, ?_, hno⟩
      rw [← h, hdec]
      simp
    | none =>
      rw [hcs] at h
      by_cases hc : c = ' '
      · rw [if_pos hc] at h
        simp only [Option.some.injEq] at h
        refine ⟨cs, ?_, (beforeLastSpace_eq_none cs).mp hcs⟩
        rw [← h, hc]
        simp
      · rw [if_neg hc] at h
        cases h

/-! ## Claim C6: score extraction -/

/-- Claim C6 (amended): `_extract_score_from_response` always returns a value in
1-6; it returns the midpoint 3 when percentages are absent or empty; and when
some option has the (first-encountered) strictly positive maximal percentage,
it returns that option parsed as an integer, with a parse failure or an
out-of-range parse defaulting to 3.  (The original claim, without the
positivity requirement, fails: see the counterexample.) -/
theorem extract_score_from_response_spec :
    (∀ ps, 1 ≤ extract_score_from_response ps ∧ extract_score_from_response ps ≤ 6) ∧
    extract_score_from_response none = 3 ∧
    extract_score_from_response (some []) = 3 ∧
    (∀ (l₁ : List (String × Rat)) (o : String) (p : Rat) (l₂ : List (String × Rat)),
      0 < p → (∀ q ∈ l₁, q.2 < p) → (∀ q ∈ l₂, q.2 ≤ p) →
      extract_score_from_response (some (l₁ ++ (o, p) :: l₂)) =
        match parsePyInt o with
        | some k => if 1 ≤ k ∧ k ≤ 6 then k else 3
        | none => 3) := by
  refine ⟨?_, rfl, rfl, ?_⟩
  · intro ps
    cases ps with
    | none => exact ⟨by decide, by decide⟩
    | some l =>
      simp only [extract_score_from_response]
      split
      · exact ⟨by decide, by decide⟩
      · split
        · next hcond => exact hcond
        · exact ⟨by decide, by decide⟩
  · intro l₁ o p l₂ hp h1 h2
    have hne : l₁ ++ (o, p) :: l₂ ≠ [] := by simp
    simp only [extract_score_from_response, if_neg hne]
    rw [scoreLoop_first_max l₁ o p l₂ 0 3 hp h1 h2]
    cases hto : parsePyInt o with
    | some k => simp [parseOptionOr3, hto]
    | none => simp [parseOptionOr3, hto]

/-- Witness for C6: on the spec's example percentages the extraction picks 5. -/
theorem extract_score_from_response_spec_witness :
    extract_score_from_response (some [("5", (60 : Rat)), ("4", 25), ("3", 15)]) = 5 := by
  have h := extract_score_from_response_spec.2.2.2 [] "5" (60 : Rat) [("4", 25), ("3", 15)]
    (by norm_num) (by simp) (by decide)
  simp only [List.nil_append] at h
  rw [h]
  decide

/-- Counterexample for C6 as stated: with percentages `{"5": 0}` the option "5"
has the (unique, hence maximal) percentage share and parses to 5 in range 1-6,
yet extraction returns 3, because the loop only records options whose
percentage strictly exceeds the initial maximum 0. -/
theorem extract_score_from_response_cex :
    parsePyInt "5" = some 5 ∧
    (∀ q ∈ [("5", (0 : Rat))], q.2 ≤ 0) ∧
    extract_score_from_response (some [("5", (0 : Rat))]) = 3 ∧
    (3 : Int) ≠ 5 := by decide

/-! ## Claim C7: truncation -/

/-- Claim C7 (amended): text within the bound is returned unchanged; longer text
is truncated to at most the bound plus the ellipsis length; when the
bound-length prefix contains a space the cut falls on a space (no word is
split); when it contains no space the result is the raw bound-length prefix
plus the ellipsis (which can split a word — see the counterexample). -/
theorem truncate_press_release_spec (text : List Char) (bound : Nat) :
    (text.length ≤ bound → truncate_press_release text bound = text) ∧
    (bound < text.length →
      (truncate_press_release text bound).length ≤ bound + ellipsisChars.length) ∧
    (bound < text.length → ' ' ∈ text.take bound →
      ∃ core rest, truncate_press_release text bound = core ++ ellipsisChars ∧
        text.take bound = core ++ ' ' :: rest ∧ text[core.length]? = some ' ') ∧
    (bound < text.length → ' ' ∉ text.take bound →
      truncate_press_release text bound = text.take bound ++ ellipsisChars) := by
  refine ⟨?_, ?_, ?_, ?_⟩
  · intro h
    simp [truncate_press_release, h]
  · intro h
    have hnle : ¬ text.length ≤ bound := by omega
    have hlen : (text.take bound).length = bound := by
      rw [List.length_take]; omega
    cases hb : beforeLastSpace (text.take bound) with
    | none =>
      simp only [truncate_press_release, if_neg hnle, hb, List.length_append]
      omega
    | some r =>
      obtain ⟨rest, hdec, -⟩ := beforeLastSpace_eq_some _ r hb
      rw [hdec] at hlen
      simp only [List.length_append, List.length_cons] at hlen
      simp only [truncate_press_release, if_neg hnle, hb, List.length_append]
      omega
  · intro h hsp
    have hnle : ¬ text.length ≤ bound := by omega
    have hlen : (text.take bound).length = bound := by
      rw [List.length_take]; omega
    cases hb : beforeLastSpace (text.take bound) with
    | none => exact absurd hsp ((beforeLastSpace_eq_none _).mp hb)
    | some r =>
      obtain ⟨rest, hdec, -⟩ := beforeLastSpace_eq_some _ r hb
      refine ⟨r, rest, ?_, hdec, ?_⟩
      · simp [truncate_press_release, if_neg hnle, hb]
      · have hrl : r.length < bound := by
          rw [hdec] at hlen
          simp only [List.length_append, List.length_cons] at hlen
          omega
        have h1 : (text.take bound)[r.length]? = text[r.length]? := by
          rw [List.getElem?_take, if_pos hrl]
        rw [← h1, hdec, List.getElem?_append_right (le_refl r.length)]
        simp
  · intro h hnsp
    have hnle : ¬ text.length ≤ bound := by omega
    have hb : beforeLastSpace (text.take bound) = none :=
      (beforeLastSpace_eq_none _).mpr hnsp
    simp [truncate_press_release, if_neg hnle, hb]

/-- Witness for C7: a short text is unchanged, and a long text with a spaced
prefix is cut at the space. -/
theorem truncate_press_release_spec_witness :
    truncate_press_release ("short text".toList) 800 = ("short text".toList) ∧
    (∃ core rest, truncate_press_release ("ab cdef".toList) 4 = core ++ ellipsisChars ∧
      ("ab cdef".toList).take 4 = core ++ ' ' :: rest ∧
      ("ab cdef".toList)[core.length]? = some ' ') := by
  constructor
  · exact (truncate_press_release_spec _ _).1 (by decide)
  · exact (truncate_press_release_spec _ _).2.2.1 (by decide) (by decide)

/-- Counterexample for C7 as stated: truncating `"abcde f"` to bound 4 yields
`"abcd..."`, cutting between `d` and `e` — both non-spaces — i.e. inside the
word `abcde`, refuting "never splits inside a word". -/
theorem truncate_press_release_cex :
    4 < ("abcde f".toList).length ∧
    truncate_press_release ("abcde f".toList) 4 = ("abcd".toList) ++ ellipsisChars ∧
    ("abcde f".toList)[("abcd".toList).length - 1]? = some 'd' ∧
    ("abcde f".toList)[("abcd".toList).length]? = some 'e' ∧
    ('d' ≠ ' ' ∧ 'e' ≠ ' ') := by decide

/-! ## Field lemmas for job-state updates -/

@[simp] lemma setQuestion_questions (st : JobState) (n : Nat) (q : QuestionRec) (m : Nat) :
    (setQuestion st n q).questions m = if m = n then some q else st.questions m := rfl

@[simp] lemma setQuestion_total (st : JobState) (n : Nat) (q : QuestionRec) :
    (setQuestion st n q).total_score = st.total_score := rfl

@[simp] lemma setQuestion_processed (st : JobState) (n : Nat) (q : QuestionRec) :
    (setQuestion st n q).processed_questions = st.processed_questions := rfl

@[simp] lemma setQuestion_status (st : JobState) (n : Nat) (q : QuestionRec) :
    (setQuestion st n q).status = st.status := rfl

@[simp] lemma setQuestion_error (st : JobState) (n : Nat) (q : QuestionRec) :
    (setQuestion st n q).error_message = st.error_message := rfl

@[simp] lemma setQuestion_cats (st : JobState) (n : Nat) (q : QuestionRec) :
    (setQuestion st n q).cats = st.cats := rfl

@[simp] lemma setQuestion_catVal (st : JobState) (n : Nat) (q : QuestionRec) (j : Fin 5) :
    catVal (setQuestion st n q) j = catVal st j := rfl

@[simp] lemma setCat_questions (st : JobState) (i : Fin 5) (v : Option Int) :
    (setCat st i v).questions = st.questions := rfl

@[simp] lemma setCat_total (st : JobState) (i : Fin 5) (v : Option Int) :
    (setCat st i v).total_score = st.total_score := rfl

@[simp] lemma setCat_processed (st : JobState) (i : Fin 5) (v : Option Int) :
    (setCat st i v).processed_questions = st.processed_questions := rfl

@[simp] lemma setCat_status (st : JobState) (i : Fin 5) (v : Option Int) :
    (setCat st i v).status = st.status := rfl

@[simp] lemma setCat_error (st : JobState) (i : Fin 5) (v : Option Int) :
    (setCat st i v).error_message = st.error_message := rfl

lemma setCat_catVal (st : JobState) (i : Fin 5) (v : Option Int) (j : Fin 5) :
    catVal (setCat st i v) j = if j = i then v.getD 0 else catVal st j := by
  unfold catVal setCat
  by_cases hj : j = i <;> simp [hj]

@[simp] lemma ensureCat_questions (st : JobState) (i : Fin 5) :
    (ensureCat st i).questions = st.questions := by
  unfold ensureCat
  split <;> rfl

@[simp] lemma ensureCat_total (st : JobState) (i : Fin 5) :
    (ensureCat st i).total_score = st.total_score := by
  unfold ensureCat
  split <;> rfl

@[simp] lemma ensureCat_processed (st : JobState) (i : Fin 5) :
    (ensureCat st i).processed_questions = st.processed_questions := by
  unfold ensureCat
  split <;> rfl

@[simp] lemma ensureCat_status (st : JobState) (i : Fin 5) :
    (ensureCat st i).status = st.status := by
  unfold ensureCat
  split <;> rfl

@[simp] lemma ensureCat_error (st : JobState) (i : Fin 5) :
    (ensureCat st i).error_message = st.error_message := by
  unfold ensureCat
  split <;> rfl

@[simp] lemma ensureCat_catVal (st : JobState) (i : Fin 5) (j : Fin 5) :
    catVal (ensureCat st i) j = catVal st j := by
  unfold ensureCat
  split
  · rfl
  · next h =>
    have hnone : st.cats i = none := by
      cases hc : st.cats i with
      | none => rfl
      | some v => rw [hc] at h; simp at h
    rw [setCat_catVal]
    by_cases hj : j = i
    · subst hj
      simp [catVal, hnone]
    · simp [hj]

@[simp] lemma ensureCat_persistedScore (st : JobState) (i : Fin 5) (n : Nat) :
    persistedScore (ensureCat st i) n = persistedScore st n := by
  unfold persistedScore
  rw [ensureCat_questions]

@[simp] lemma ensureCat_isResolved (st : JobState) (i : Fin 5) (n : Nat) :
    isResolved (ensureCat st i) n = isResolved st n := by
  unfold isResolved
  rw [ensureCat_questions]

lemma setQuestion_persistedScore (st : JobState) (n : Nat) (q : QuestionRec) (m : Nat) :
    persistedScore (setQuestion st n q) m =
      if m = n then q.score.getD 0 else persistedScore st m := by
  unfold persistedScore
  by_cases h : m = n <;> simp [h]

lemma setQuestion_isResolved (st : JobState) (n : Nat) (q : QuestionRec) (m : Nat) :
    isResolved (setQuestion st n q) m =
      if m = n then q.score.isSome else isResolved st m := by
  unfold isResolved
  by_cases h : m = n <;> simp [h]

/-! ## Sum and count bookkeeping -/

lemma sum_bump {ι : Type} [DecidableEq ι] (s : Finset ι) (f g : ι → Int) (a : ι) (d : Int)
    (ha : a ∈ s) (hoff : ∀ b ∈ s, b ≠ a → g b = f b) (hga : g a = f a + d) :
    ∑ b in s, g b = (∑ b in s, f b) + d := by
  rw [← Finset.add_sum_erase s g ha, ← Finset.add_sum_erase s f ha, hga]
  have hcong : ∑ b in s.erase a, g b = ∑ b in s.erase a, f b := by
    apply Finset.sum_congr rfl
    intro b hb
    exact hoff b (Finset.mem_of_mem_erase hb) (Finset.ne_of_mem_erase hb)
  rw [hcong]
  ring

lemma resolvedCount_congr (st st' : JobState)
    (h : ∀ n, isResolved st' n = isResolved st n) :
    resolvedCount st' = resolvedCount st := by
  unfold resolvedCount
  congr 1
  apply Finset.filter_congr
  intro n _
  rw [h n]

lemma resolvedCount_resolve (st : JobState) (qn : Nat) (q : QuestionRec)
    (hqn : qn ∈ Finset.Icc 1 30) (hunres : isResolved st qn = false)
    (hq : q.score.isSome = true) :
    resolvedCount (setQuestion st qn q) = resolvedCount st + 1 := by
  unfold resolvedCount
  have hset : (Finset.Icc 1 30).filter (fun n => isResolved (setQuestion st qn q) n = true)
      = insert qn ((Finset.Icc 1 30).filter (fun n => isResolved st n = true)) := by
    ext n
    simp only [Finset.mem_filter, Finset.mem_insert]
    constructor
    · rintro ⟨hn, hres⟩
      by_cases h : n = qn
      · exact Or.inl h
      · right
        refine ⟨hn, ?_⟩
        rw [setQuestion_isResolved, if_neg h] at hres
        exact hres
    · rintro (rfl | ⟨hn, hres⟩)
      · exact ⟨hqn, by rw [setQuestion_isResolved, if_pos rfl]; exact hq⟩
      · by_cases h : n = qn
        · subst h
          exact ⟨hn, by rw [setQuestion_isResolved, if_pos rfl]; exact hq⟩
        · exact ⟨hn, by rw [setQuestion_isResolved, if_neg h]; exact hres⟩
  rw [hset, Finset.card_insert_of_not_mem]
  simp only [Finset.mem_filter, not_and]
  intro _
  simp [hunres]

lemma resolvedCount_le_29 (st : JobState) (qn : Nat)
    (hqn : qn ∈ Finset.Icc 1 30) (hunres : isResolved st qn = false) :
    resolvedCount st ≤ 29 := by
  unfold resolvedCount
  have hsub : (Finset.Icc 1 30).filter (fun n => isResolved st n = true)
      ⊆ (Finset.Icc 1 30).erase qn := by
    intro n hn
    simp only [Finset.mem_filter] at hn
    rw [Finset.mem_erase]
    refine ⟨?_, hn.1⟩
    rintro rfl
    rw [hunres] at hn
    exact absurd hn.2 (by simp)
  calc ((Finset.Icc 1 30).filter (fun n => isResolved st n = true)).card
      ≤ ((Finset.Icc 1 30).erase qn).card := Finset.card_le_card hsub
    _ = 29 := by rw [Finset.card_erase_of_mem hqn]; simp

lemma JobInv_congr (st st' : JobState)
    (ht : st'.total_score = st.total_score)
    (hp : st'.processed_questions = st.processed_questions)
    (hs : st'.status = st.status)
    (hc : ∀ i, catVal st' i = catVal st i)
    (hq : ∀ n, (st'.questions n).bind (fun q => q.score) = (st.questions n).bind (fun q => q.score))
    (h : JobInv st) : JobInv st' := by
  obtain ⟨h1, h2, h3, h4, h5⟩ := h
  have hps : ∀ n, persistedScore st' n = persistedScore st n := by
    intro n
    unfold persistedScore
    rw [hq n]
  have hres : ∀ n, isResolved st' n = isResolved st n := by
    intro n
    unfold isResolved
    rw [hq n]
  refine ⟨?_, ?_, ?_, ?_, ?_⟩
  · rw [ht, h1]
    exact Finset.sum_congr rfl (fun i _ => (hc i).symm)
  · rw [ht, h2]
    exact Finset.sum_congr rfl (fun n _ => (hps n).symm)
  · rw [hp, resolvedCount_congr st st' hres]
    exact h3
  · rw [hp]; exact h4
  · rw [hs, hp]; exact h5

/-! ## Branch equations for the step function -/

lemma categoryIndexOfQn_lt_5 {qn : Nat} (h2 : qn ≤ 30) : categoryIndexOfQn qn < 5 := by
  unfold categoryIndexOfQn
  omega

lemma stepPoll_exc_eq (st : JobState) (qn : Nat) (catIdx : Fin 5) (q : QuestionRec)
    (aid : String) (m : String) (d : Bool) :
    stepPoll st qn catIdx q aid (.exc m) d = (st, .exc m, ⟨d, some aid⟩) := rfl

lemma stepPoll_pending_eq (st : JobState) (qn : Nat) (catIdx : Fin 5) (q : QuestionRec)
    (aid : String) (pr : PollResult) (d : Bool)
    (hc : (pr.success && pr.status == some "Predicted") = false) :
    stepPoll st qn catIdx q aid (.ok pr) d =
      (st, .ok ⟨true, false, none⟩, ⟨d, some aid⟩) := by
  simp only [stepPoll]
  rw [if_neg (by simp [hc])]

lemma stepPoll_resolve_eq (st : JobState) (qn : Nat) (catIdx : Fin 5) (q : QuestionRec)
    (aid : String) (pr : PollResult) (d : Bool)
    (hc : (pr.success && pr.status == some "Predicted") = true) :
    stepPoll st qn catIdx q aid (.ok pr) d =
      (resolveUpdate st qn catIdx q pr,
       .ok ⟨false, true, some (extract_score_from_response pr.simulated_answer_percentages)⟩,
       ⟨d, some aid⟩) := by
  simp only [stepPoll, resolveUpdate]
  rw [if_pos hc]
  rfl

lemma stepContinue_resume_eq (st : JobState) (qn : Nat) (catIdx : Fin 5) (q : QuestionRec)
    (beh : StepBeh) (aid : String) (haid : q.semilattice_answer_id = some aid) :
    stepContinue st qn catIdx q beh = stepPoll st qn catIdx q aid beh.poll false := by
  simp only [stepContinue, haid]

lemma stepContinue_submit_exc_eq (st : JobState) (qn : Nat) (catIdx : Fin 5) (q : QuestionRec)
    (beh : StepBeh) (m : String) (haid : q.semilattice_answer_id = none)
    (hsub : beh.submit = .exc m) :
    stepContinue st qn catIdx q beh = (st, .exc m, ⟨true, none⟩) := by
  simp only [stepContinue, haid, hsub]

lemma stepContinue_submit_fail_eq (st : JobState) (qn : Nat) (catIdx : Fin 5) (q : QuestionRec)
    (beh : StepBeh) (sr : SimResult) (haid : q.semilattice_answer_id = none)
    (hsub : beh.submit = .ok sr) (hfail : (!sr.success || answerIdBlank sr.answer_id) = true) :
    stepContinue st qn catIdx q beh = (st, .ok ⟨true, false, none⟩, ⟨true, none⟩) := by
  simp only [stepContinue, haid, hsub]
  rw [if_pos hfail]

lemma stepContinue_submit_ok_eq (st : JobState) (qn : Nat) (catIdx : Fin 5) (q : QuestionRec)
    (beh : StepBeh) (sr : SimResult) (haid : q.semilattice_answer_id = none)
    (hsub : beh.submit = .ok sr) (hfail : (!sr.success || answerIdBlank sr.answer_id) = false) :
    stepContinue st qn catIdx q beh =
      stepPoll (setQuestion st qn { q with semilattice_answer_id := some (sr.answer_id.getD "") })
        qn catIdx { q with semilattice_answer_id := some (sr.answer_id.getD "") }
        (sr.answer_id.getD "") beh.poll true := by
  simp only [stepContinue, haid, hsub]
  rw [if_neg (by simp [hfail])]

lemma step_out_of_range_eq (st : JobState) (qn : Nat) (beh : StepBeh)
    (hb : ¬(1 ≤ qn ∧ qn ≤ 30)) :
    process_question_step st qn beh =
      (st, .exc "question_number must be between 1 and 30", ⟨false, none⟩) := by
  simp only [process_question_step]
  rw [dif_neg hb]

lemma step_already_scored_eq (st : JobState) (qn : Nat) (beh : StepBeh) (q : QuestionRec)
    (s : Int) (hb : 1 ≤ qn ∧ qn ≤ 30) (hq : st.questions qn = some q) (hs : q.score = some s) :
    process_question_step st qn beh =
      (ensureCat st ⟨categoryIndexOfQn qn, categoryIndexOfQn_lt_5 hb.2⟩,
       .ok ⟨false, true, some s⟩, ⟨false, none⟩) := by
  simp only [process_question_step]
  rw [dif_pos hb]
  simp only [hq, hs]

lemma step_continue_existing_eq (st : JobState) (qn : Nat) (beh : StepBeh) (q : QuestionRec)
    (hb : 1 ≤ qn ∧ qn ≤ 30) (hq : st.questions qn = some q) (hs : q.score = none) :
    process_question_step st qn beh =
      stepContinue (ensureCat st ⟨categoryIndexOfQn qn, categoryIndexOfQn_lt_5 hb.2⟩) qn
        ⟨categoryIndexOfQn qn, categoryIndexOfQn_lt_5 hb.2⟩ q beh := by
  simp only [process_question_step]
  rw [dif_pos hb]
  simp only [hq, hs]

lemma step_create_eq (st : JobState) (qn : Nat) (beh : StepBeh)
    (hb : 1 ≤ qn ∧ qn ≤ 30) (hq : st.questions qn = none) :
    process_question_step st qn beh =
      stepContinue
        (setQuestion (ensureCat st ⟨categoryIndexOfQn qn, categoryIndexOfQn_lt_5 hb.2⟩) qn
          ⟨baseQuestion qn, none, none, none⟩)
        qn ⟨categoryIndexOfQn qn, categoryIndexOfQn_lt_5 hb.2⟩
        ⟨baseQuestion qn, none, none, none⟩ beh := by
  simp only [process_question_step]
  rw [dif_pos hb]
  simp only [hq]

lemma resolveUpdate_total (st : JobState) (qn : Nat) (catIdx : Fin 5) (q : QuestionRec)
    (pr : PollResult) :
    (resolveUpdate st qn catIdx q pr).total_score =
      st.total_score + extract_score_from_response pr.simulated_answer_percentages := rfl

lemma resolveUpdate_processed (st : JobState) (qn : Nat) (catIdx : Fin 5) (q : QuestionRec)
    (pr : PollResult) :
    (resolveUpdate st qn catIdx q pr).processed_questions = st.processed_questions + 1 := rfl

lemma resolveUpdate_status (st : JobState) (qn : Nat) (catIdx : Fin 5) (q : QuestionRec)
    (pr : PollResult) :
    (resolveUpdate st qn catIdx q pr).status =
      (if st.processed_questions + 1 ≥ 30 then "done" else "running") := rfl

lemma resolveUpdate_error (st : JobState) (qn : Nat) (catIdx : Fin 5) (q : QuestionRec)
    (pr : PollResult) :
    (resolveUpdate st qn catIdx q pr).error_message = st.error_message := rfl

lemma resolveUpdate_questions (st : JobState) (qn : Nat) (catIdx : Fin 5) (q : QuestionRec)
    (pr : PollResult) (m : Nat) :
    (resolveUpdate st qn catIdx q pr).questions m =
      if m = qn then
        some { q with score := some (extract_score_from_response pr.simulated_answer_percentages),
                      raw_response := some pr }
      else st.questions m := rfl

lemma resolveUpdate_catVal (st : JobState) (qn : Nat) (catIdx : Fin 5) (q : QuestionRec)
    (pr : PollResult) (i : Fin 5) :
    catVal (resolveUpdate st qn catIdx q pr) i =
      if i = catIdx then
        catVal st catIdx + extract_score_from_response pr.simulated_answer_percentages
      else catVal st i := by
  have h : catVal (resolveUpdate st qn catIdx q pr) i =
      catVal (setCat (setQuestion st qn
          { q with score := some (extract_score_from_response pr.simulated_answer_percentages),
                   raw_response := some pr }) catIdx
        (some (catVal st catIdx + extract_score_from_response pr.simulated_answer_percentages))) i := rfl
  rw [h, setCat_catVal]
  by_cases hi : i = catIdx <;> simp [hi]

/-! ## Structural lemmas about the step function -/

lemma stepPoll_questions_other (st : JobState) (qn : Nat) (catIdx : Fin 5)
    (q : QuestionRec) (aid : String) (poll : PollBeh) (d : Bool) (m : Nat) (hm : m ≠ qn) :
    ((stepPoll st qn catIdx q aid poll d).1).questions m = st.questions m := by
  cases poll with
  | exc msg => rw [stepPoll_exc_eq]
  | ok pr =>
    by_cases hc : (pr.success && pr.status == some "Predicted") = true
    · rw [stepPoll_resolve_eq st qn catIdx q aid pr d hc, resolveUpdate_questions, if_neg hm]
    · rw [stepPoll_pending_eq st qn catIdx q aid pr d (by simpa using hc)]

lemma stepContinue_questions_other (st : JobState) (qn : Nat) (catIdx : Fin 5)
    (q : QuestionRec) (beh : StepBeh) (m : Nat) (hm : m ≠ qn) :
    ((stepContinue st qn catIdx q beh).1).questions m = st.questions m := by
  cases haid : q.semilattice_answer_id with
  | some aid =>
    rw [stepContinue_resume_eq st qn catIdx q beh aid haid]
    exact stepPoll_questions_other st qn catIdx q aid beh.poll false m hm
  | none =>
    cases hsub : beh.submit with
    | exc ms => rw [stepContinue_submit_exc_eq st qn catIdx q beh ms haid hsub]
    | ok sr =>
      by_cases hfail : (!sr.success || answerIdBlank sr.answer_id) = true
      · rw [stepContinue_submit_fail_eq st qn catIdx q beh sr haid hsub hfail]
      · rw [stepContinue_submit_ok_eq st qn catIdx q beh sr haid hsub (by simpa using hfail)]
        rw [stepPoll_questions_other _ _ _ _ _ _ _ _ hm]
        simp [hm]

lemma process_question_step_questions_other (st : JobState) (qn : Nat) (beh : StepBeh)
    (m : Nat) (hm : m ≠ qn) :
    ((process_question_step st qn beh).1).questions m = st.questions m := by
  by_cases hb : 1 ≤ qn ∧ qn ≤ 30
  · cases hq : st.questions qn with
    | some q =>
      cases hs : q.score with
      | some s =>
        rw [step_already_scored_eq st qn beh q s hb hq hs]
        simp
      | none =>
        rw [step_continue_existing_eq st qn beh q hb hq hs]
        rw [stepContinue_questions_other _ _ _ _ _ _ hm]
        simp
    | none =>
      rw [step_create_eq st qn beh hb hq]
      rw [stepContinue_questions_other _ _ _ _ _ _ hm]
      simp [hm]
  · rw [step_out_of_range_eq st qn beh hb]

lemma process_question_step_score_preserved (st : JobState) (qn : Nat) (beh : StepBeh)
    (n : Nat) (s : Int) (hs : (st.questions n).bind (fun q => q.score) = some s) :
    (((process_question_step st qn beh).1).questions n).bind (fun q => q.score) = some s := by
  by_cases hm : n = qn
  · subst hm
    cases hqq : st.questions n with
    | none => rw [hqq] at hs; simp at hs
    | some q =>
      rw [hqq] at hs
      have hqs : q.score = some s := by simpa using hs
      by_cases hb : 1 ≤ n ∧ n ≤ 30
      · rw [step_already_scored_eq st n beh q s hb hqq hqs]
        simp [hqq, hqs]
      · rw [step_out_of_range_eq st n beh hb, hqq]
        simpa using hqs
  · rw [process_question_step_questions_other st qn beh n hm]
    exact hs

/-! ## Invariant preservation -/

lemma stepPoll_invariant (st : JobState) (qn : Nat) (catIdx : Fin 5) (q : QuestionRec)
    (aid : String) (poll : PollBeh) (d : Bool)
    (hq : st.questions qn = some q) (hs : q.score = none)
    (hqn : qn ∈ Finset.Icc 1 30) (h : JobInv st) :
    JobInv ((stepPoll st qn catIdx q aid poll d).1) := by
  cases poll with
  | exc m => rw [stepPoll_exc_eq]; exact h
  | ok pr =>
    by_cases hc : (pr.success && pr.status == some "Predicted") = true
    case neg =>
      rw [stepPoll_pending_eq st qn catIdx q aid pr d (by simpa using hc)]
      exact h
    case pos =>
      rw [stepPoll_resolve_eq st qn catIdx q aid pr d hc]
      obtain ⟨h1, h2, h3, h4, h5⟩ := h
      have hunres : isResolved st qn = false := by
        unfold isResolved
        rw [hq]
        simp [hs]
      have hps0 : persistedScore st qn = 0 := by
        unfold persistedScore
        rw [hq]
        simp [hs]
      have hcount : resolvedCount (resolveUpdate st qn catIdx q pr) = resolvedCount st + 1 := by
        have hres_eq : ∀ n, isResolved (resolveUpdate st qn catIdx q pr) n =
            isResolved (setQuestion st qn
              { q with score := some (extract_score_from_response pr.simulated_answer_percentages),
                       raw_response := some pr }) n := by
          intro n
          unfold isResolved
          rw [resolveUpdate_questions, setQuestion_questions]
        rw [resolvedCount_congr _ _ hres_eq]
        exact resolvedCount_resolve st qn _ hqn hunres (by simp)
      have hle29 : resolvedCount st ≤ 29 := resolvedCount_le_29 st qn hqn hunres
      have hple : st.processed_questions ≤ 29 := by
        rw [h3]
        exact_mod_cast hle29
      refine ⟨?_, ?_, ?_, ?_, ?_⟩
      · rw [resolveUpdate_total]
        have hsum : ∑ i : Fin 5, catVal (resolveUpdate st qn catIdx q pr) i
            = (∑ i : Fin 5, catVal st i)
              + extract_score_from_response pr.simulated_answer_percentages := by
          apply sum_bump Finset.univ (catVal st) _ catIdx _ (Finset.mem_univ catIdx)
          · intro b _ hb
            rw [resolveUpdate_catVal, if_neg hb]
          · rw [resolveUpdate_catVal, if_pos rfl]
        rw [hsum, ← h1]
      · rw [resolveUpdate_total]
        have hsum : ∑ n in Finset.Icc 1 30, persistedScore (resolveUpdate st qn catIdx q pr) n
            = (∑ n in Finset.Icc 1 30, persistedScore st n)
              + extract_score_from_response pr.simulated_answer_percentages := by
          apply sum_bump _ (persistedScore st) _ qn _ hqn
          · intro b _ hb
            unfold persistedScore
            rw [resolveUpdate_questions, if_neg hb]
          · unfold persistedScore
            rw [resolveUpdate_questions, if_pos rfl, hq]
            simp [hs]
        rw [hsum, ← h2]
      · rw [resolveUpdate_processed, hcount, h3]
        push_cast
        ring
      · rw [resolveUpdate_processed]
        omega
      · rw [resolveUpdate_status, resolveUpdate_processed]
        by_cases hge : st.processed_questions + 1 ≥ 30
        · rw [if_pos hge]
          constructor
          · intro _
            omega
          · intro _
            rfl
        · rw [if_neg hge]
          constructor
          · intro hcontra
            exact absurd hcontra (by decide)
          · intro h30
            omega

lemma stepContinue_invariant (st : JobState) (qn : Nat) (catIdx : Fin 5) (q : QuestionRec)
    (beh : StepBeh) (hq : st.questions qn = some q) (hs : q.score = none)
    (hqn : qn ∈ Finset.Icc 1 30) (h : JobInv st) :
    JobInv ((stepContinue st qn catIdx q beh).1) := by
  cases haid : q.semilattice_answer_id with
  | some aid =>
    rw [stepContinue_resume_eq st qn catIdx q beh aid haid]
    exact stepPoll_invariant st qn catIdx q aid beh.poll false hq hs hqn h
  | none =>
    cases hsub : beh.submit with
    | exc m =>
      rw [stepContinue_submit_exc_eq st qn catIdx q beh m haid hsub]
      exact h
    | ok sr =>
      by_cases hfail : (!sr.success || answerIdBlank sr.answer_id) = true
      · rw [stepContinue_submit_fail_eq st qn catIdx q beh sr haid hsub hfail]
        exact h
      · rw [stepContinue_submit_ok_eq st qn catIdx q beh sr haid hsub (by simpa using hfail)]
        refine stepPoll_invariant _ qn catIdx _ _ beh.poll true (by simp) (by simp [hs]) hqn ?_
        refine JobInv_congr st _ (by simp) (by simp) (by simp) (fun i => by simp) ?_ h
        intro n
        by_cases hn : n = qn
        · subst hn
          simp [hq, hs]
        · simp [hn]

/-- Claim C1: after any `process_question_step` call, the job total equals the
sum of the category subtotals and the sum of the persisted non-null question
scores, the processed count equals the number of resolved questions and never
exceeds 30, and the status is `done` exactly when 30 questions are processed:
the consistency invariant `JobInv` is preserved by every step. -/
theorem process_question_step_invariant (st : JobState) (qn : Nat) (beh : StepBeh)
    (h : JobInv st) : JobInv ((process_question_step st qn beh).1) := by
  by_cases hb : 1 ≤ qn ∧ qn ≤ 30
  · have hqn : qn ∈ Finset.Icc 1 30 := by
      rw [Finset.mem_Icc]
      exact ⟨hb.1, hb.2⟩
    cases hq : st.questions qn with
    | some q =>
      cases hs : q.score with
      | some s =>
        rw [step_already_scored_eq st qn beh q s hb hq hs]
        exact JobInv_congr st _ (by simp) (by simp) (by simp) (fun i => by simp)
          (fun n => by simp) h
      | none =>
        rw [step_continue_existing_eq st qn beh q hb hq hs]
        refine stepContinue_invariant _ qn _ q beh (by simp [hq]) hs hqn ?_
        exact JobInv_congr st _ (by simp) (by simp) (by simp) (fun i => by simp)
          (fun n => by simp) h
    | none =>
      rw [step_create_eq st qn beh hb hq]
      refine stepContinue_invariant _ qn _ _ beh (by simp) rfl hqn ?_
      refine JobInv_congr st _ (by simp) (by simp) (by simp) (fun i => by simp) ?_ h
      intro n
      by_cases hn : n = qn
      · subst hn
        simp [hq]
      · simp [hn]
  · rw [step_out_of_range_eq st qn beh hb]
    exact h

/-- Witness for C1: a freshly created job satisfies the invariant, and it is
preserved by a step that resolves question 1. -/
theorem process_question_step_invariant_witness :
    JobInv ((process_question_step
      { press_release_text := [], population_id := "pop", total_score := 0, status := "pending",
        processed_questions := 0, error_message := none, cats := fun _ => none,
        questions := fun _ => none }
      1
      ⟨.ok ⟨true, some "a1"⟩,
       .ok ⟨true, some "Predicted", some [("5", 60), ("4", 25), ("3", 15)]⟩⟩).1) :=
  process_question_step_invariant _ 1 _ (by decide)

/-- Claim C3: a `process_question_step` call on a question that already has a
persisted non-null score returns `pending = false, done = true` with that same
score, performs no submission and no poll, and leaves the job total, processed
count, status, error, every category subtotal and every question row
unchanged. -/
theorem process_question_step_already_scored (st : JobState) (qn : Nat) (beh : StepBeh)
    (q : QuestionRec) (s : Int) (h1 : 1 ≤ qn) (h2 : qn ≤ 30)
    (hq : st.questions qn = some q) (hs : q.score = some s) :
    (process_question_step st qn beh).2.1 = .ok ⟨false, true, some s⟩ ∧
    (process_question_step st qn beh).2.2.submitted = false ∧
    (process_question_step st qn beh).2.2.polled = none ∧
    ((process_question_step st qn beh).1).total_score = st.total_score ∧
    ((process_question_step st qn beh).1).processed_questions = st.processed_questions ∧
    ((process_question_step st qn beh).1).status = st.status ∧
    ((process_question_step st qn beh).1).error_message = st.error_message ∧
    (∀ i, catVal ((process_question_step st qn beh).1) i = catVal st i) ∧
    ((process_question_step st qn beh).1).questions = st.questions := by
  rw [step_already_scored_eq st qn beh q s ⟨h1, h2⟩ hq hs]
  exact ⟨rfl, rfl, rfl, by simp, by simp, by simp, by simp, fun i => by simp, by simp⟩

/-- Witness for C3: on a job whose question 3 is already scored 4, a step with a
broken client still returns done with score 4. -/
theorem process_question_step_already_scored_witness :
    (process_question_step
      { press_release_text := [], population_id := "pop", total_score := 4, status := "running",
        processed_questions := 1, error_message := none, cats := fun _ => none,
        questions := fun n => if n = 3 then some ⟨"q3", some 4, some "aid-3", none⟩ else none }
      3 ⟨.exc "down", .exc "down"⟩).2.1 = .ok ⟨false, true, some 4⟩ :=
  (process_question_step_already_scored _ 3 _ ⟨"q3", some 4, some "aid-3", none⟩ 4
    (by norm_num) (by norm_num) (by simp) rfl).1

/-- Claim C2: once a question row carries a Semilattice answer id, any later
step call keeps that id, never calls `simulate_answer` for it, and any poll it
performs for that question polls exactly the stored id. -/
theorem process_question_step_single_submission (st : JobState) (qn qn' : Nat) (beh : StepBeh)
    (q : QuestionRec) (a : String)
    (hq : st.questions qn = some q) (ha : q.semilattice_answer_id = some a) :
    (∃ q', ((process_question_step st qn' beh).1).questions qn = some q' ∧
      q'.semilattice_answer_id = some a) ∧
    (qn' = qn →
      (process_question_step st qn' beh).2.2.submitted = false ∧
      ∀ b, (process_question_step st qn' beh).2.2.polled = some b → b = a) := by
  by_cases hmn : qn' = qn
  · subst hmn
    by_cases hb : 1 ≤ qn' ∧ qn' ≤ 30
    · cases hs : q.score with
      | some s =>
        rw [step_already_scored_eq st qn' beh q s hb hq hs]
        refine ⟨⟨q, by simp [hq], ha⟩, fun _ => ⟨rfl, fun b hbad => by simp at hbad⟩⟩
      | none =>
        rw [step_continue_existing_eq st qn' beh q hb hq hs]
        rw [stepContinue_resume_eq _ qn' _ q beh a ha]
        cases hpoll : beh.poll with
        | exc m =>
          rw [stepPoll_exc_eq]
          refine ⟨⟨q, by simp [hq], ha⟩, fun _ => ⟨rfl, fun b hbad => by
            simp only [StepTrace.mk.injEq] at hbad ⊢
            exact (Option.some.inj hbad).symm⟩⟩
        | ok pr =>
          by_cases hc : (pr.success && pr.status == some "Predicted") = true
          · rw [stepPoll_resolve_eq _ qn' _ q a pr false hc]
            refine ⟨⟨_, by rw [resolveUpdate_questions, if_pos rfl], by simp [ha]⟩,
              fun _ => ⟨rfl, fun b hbad => by
                simp only at hbad
                exact (Option.some.inj hbad).symm⟩⟩
          · rw [stepPoll_pending_eq _ qn' _ q a pr false (by simpa using hc)]
            refine ⟨⟨q, by simp [hq], ha⟩, fun _ => ⟨rfl, fun b hbad => by
              simp only at hbad
              exact (Option.some.inj hbad).symm⟩⟩
    · rw [step_out_of_range_eq st qn' beh hb]
      refine ⟨⟨q, hq, ha⟩, fun _ => ⟨rfl, fun b hbad => by simp at hbad⟩⟩
  · refine ⟨?_, fun hcontra => absurd hcontra hmn⟩
    rw [process_question_step_questions_other st qn' beh qn (fun hcc => hmn hcc.symm)]
    exact ⟨q, hq, ha⟩

/-- Witness for C2: a step on a question whose row already stores answer id
`a2` performs no submission. -/
theorem process_question_step_single_submission_witness :
    (process_question_step
      { press_release_text := [], population_id := "pop", total_score := 0, status := "running",
        processed_questions := 0, error_message := none, cats := fun _ => none,
        questions := fun n => if n = 2 then some ⟨"q2", none, some "a2", none⟩ else none }
      2 ⟨.ok ⟨true, some "fresh"⟩, .ok ⟨true, some "Running", none⟩⟩).2.2.submitted = false :=
  ((process_question_step_single_submission _ 2 2 _ ⟨"q2", none, some "a2", none⟩ "a2"
    (by simp) rfl).2 rfl).1

/-- Claim C4: a step whose client outcomes cannot resolve the question (failed
or id-less submission, or a poll that does not return a successful `Predicted`
result) returns `pending = true, done = false`, leaves the question score null,
and leaves the processed count, total, status and error unchanged. -/
theorem process_question_step_transient (st : JobState) (qn : Nat) (beh : StepBeh)
    (h1 : 1 ≤ qn) (h2 : qn ≤ 30)
    (hunscored : (st.questions qn).bind (fun q => q.score) = none)
    (hnr : stepNonResolving st qn beh = true) :
    (process_question_step st qn beh).2.1 = .ok ⟨true, false, none⟩ ∧
    (((process_question_step st qn beh).1).questions qn).bind (fun q => q.score) = none ∧
    ((process_question_step st qn beh).1).total_score = st.total_score ∧
    ((process_question_step st qn beh).1).processed_questions = st.processed_questions ∧
    ((process_question_step st qn beh).1).status = st.status ∧
    ((process_question_step st qn beh).1).error_message = st.error_message := by
  have hb : 1 ≤ qn ∧ qn ≤ 30 := ⟨h1, h2⟩
  cases hq : st.questions qn with
  | some q =>
    have hs : q.score = none := by
      rw [hq] at hunscored
      simpa using hunscored
    simp only [stepNonResolving, hq, Option.some_bind] at hnr
    rw [step_continue_existing_eq st qn beh q hb hq hs]
    cases haid : q.semilattice_answer_id with
    | none =>
      rw [haid] at hnr
      cases hsub : beh.submit with
      | exc m => rw [hsub] at hnr; simp [submitThenPollPending] at hnr
      | ok sr =>
        rw [hsub] at hnr
        simp only [submitThenPollPending] at hnr
        cases hfail : (!sr.success || answerIdBlank sr.answer_id) with
        | true =>
          rw [stepContinue_submit_fail_eq _ qn _ q beh sr haid hsub hfail]
          refine ⟨rfl, ?_, by simp, by simp, by simp, by simp⟩
          simp [hq, hs]
        | false =>
          rw [if_neg (by simp [hfail])] at hnr
          cases hpoll : beh.poll with
          | exc m => rw [hpoll] at hnr; simp [pollNotPredicted] at hnr
          | ok pr =>
            rw [hpoll] at hnr
            simp only [pollNotPredicted] at hnr
            cases hc : (pr.success && pr.status == some "Predicted") with
            | true => rw [hc] at hnr; simp at hnr
            | false =>
              rw [stepContinue_submit_ok_eq _ qn _ q beh sr haid hsub hfail]
              rw [hpoll, stepPoll_pending_eq _ qn _ _ _ pr true hc]
              refine ⟨rfl, ?_, by simp, by simp, by simp, by simp⟩
              simp [hs]
    | some aid =>
      rw [haid] at hnr
      cases hpoll : beh.poll with
      | exc m => rw [hpoll] at hnr; simp [pollNotPredicted] at hnr
      | ok pr =>
        rw [hpoll] at hnr
        simp only [pollNotPredicted] at hnr
        cases hc : (pr.success && pr.status == some "Predicted") with
        | true => rw [hc] at hnr; simp at hnr
        | false =>
          rw [stepContinue_resume_eq _ qn _ q beh aid haid]
          rw [hpoll, stepPoll_pending_eq _ qn _ q aid pr false hc]
          refine ⟨rfl, ?_, by simp, by simp, by simp, by simp⟩
          simp [hq, hs]
  | none =>
    simp only [stepNonResolving, hq, Option.none_bind] at hnr
    rw [step_create_eq st qn beh hb hq]
    cases hsub : beh.submit with
    | exc m => rw [hsub] at hnr; simp [submitThenPollPending] at hnr
    | ok sr =>
      rw [hsub] at hnr
      simp only [submitThenPollPending] at hnr
      cases hfail : (!sr.success || answerIdBlank sr.answer_id) with
      | true =>
        rw [stepContinue_submit_fail_eq _ qn _ _ beh sr rfl hsub hfail]
        refine ⟨rfl, ?_, by simp, by simp, by simp, by simp⟩
        simp
      | false =>
        rw [if_neg (by simp [hfail])] at hnr
        cases hpoll : beh.poll with
        | exc m => rw [hpoll] at hnr; simp [pollNotPredicted] at hnr
        | ok pr =>
          rw [hpoll] at hnr
          simp only [pollNotPredicted] at hnr
          cases hc : (pr.success && pr.status == some "Predicted") with
          | true => rw [hc] at hnr; simp at hnr
          | false =>
            rw [stepContinue_submit_ok_eq _ qn _ _ beh sr rfl hsub hfail]
            rw [hpoll, stepPoll_pending_eq _ qn _ _ _ pr true hc]
            refine ⟨rfl, ?_, by simp, by simp, by simp, by simp⟩
            simp

/-- Witness for C4: a step whose poll times out (unsuccessful result) on a
fresh question returns pending and leaves the job untouched. -/
theorem process_question_step_transient_witness :
    (process_question_step
      { press_release_text := [], population_id := "pop", total_score := 0, status := "running",
        processed_questions := 0, error_message := none, cats := fun _ => none,
        questions := fun _ => none }
      5 ⟨.ok ⟨true, some "a5"⟩, .ok ⟨false, none, none⟩⟩).2.1 = .ok ⟨true, false, none⟩ :=
  (process_question_step_transient _ 5 _ (by norm_num) (by norm_num) (by simp) (by decide)).1

/-- Claim C5: when a `process_question_step` invocation raises, the
(spec-modelled) step view records the failure on the job — status `failed`,
error text stored — while every already-persisted non-null question score is
unchanged, in the raw service state as well as in the view state. -/
theorem process_question_step_view_failure (st : JobState) (qn : Nat) (beh : StepBeh)
    (msg : String) (hexc : (process_question_step st qn beh).2.1 = .exc msg) :
    ((process_question_step_view st qn beh).1).status = "failed" ∧
    ((process_question_step_view st qn beh).1).error_message = some msg ∧
    (∀ n s, (st.questions n).bind (fun q => q.score) = some s →
      ((((process_question_step_view st qn beh).1).questions n).bind (fun q => q.score) = some s ∧
       (((process_question_step st qn beh).1).questions n).bind (fun q => q.score) = some s)) := by
  rcases hstep : process_question_step st qn beh with ⟨st1, res, tr⟩
  have hres : res = .exc msg := by
    rw [hstep] at hexc
    exact hexc
  subst hres
  have hview : process_question_step_view st qn beh =
      ({ st1 with status := "failed", error_message := some msg }, .exc msg, tr) := by
    simp only [process_question_step_view, hstep]
  rw [hview]
  refine ⟨rfl, rfl, ?_⟩
  intro n s hsc
  have hpres := process_question_step_score_preserved st qn beh n s hsc
  rw [hstep] at hpres
  exact ⟨hpres, hpres⟩

/-- Witness for C5: a job whose client raises on submission is marked failed
with the exception text, and a previously scored question keeps its score. -/
theorem process_question_step_view_failure_witness :
    ((process_question_step_view
      { press_release_text := [], population_id := "pop", total_score := 5, status := "running",
        processed_questions := 1, error_message := none, cats := fun _ => none,
        questions := fun n => if n = 1 then some ⟨"q1", some 5, some "a1", none⟩ else none }
      2 ⟨.exc "boom", .exc "boom"⟩).1).status = "failed" :=
  (process_question_step_view_failure _ 2 _ "boom" (by decide)).1

/-- Claim C10: in the one-shot scoring path, any submission or polling failure
makes `_get_question_score` return the default 3, which `score_single_question`
permanently persists for the question and counts into the job aggregates; the
job records no error and its status moves to `running`, or to `done` on the
30th question, never to `failed`. -/
theorem one_shot_defaults_on_failure (beh : StepBeh) (st : JobState) (qn : Nat)
    (h1 : 1 ≤ qn) (h2 : qn ≤ 30) (hq : st.questions qn = none)
    (hfail : clientFailure beh = true) :
    get_question_score beh = 3 ∧
    (score_single_question st qn beh).2 = .ok (some 3) ∧
    (((score_single_question st qn beh).1).questions qn).bind (fun q => q.score) = some 3 ∧
    ((score_single_question st qn beh).1).total_score = st.total_score + 3 ∧
    ((score_single_question st qn beh).1).processed_questions = st.processed_questions + 1 ∧
    ((score_single_question st qn beh).1).status =
      (if st.processed_questions + 1 ≥ 30 then "done" else "running") ∧
    ((score_single_question st qn beh).1).status ≠ "failed" ∧
    ((score_single_question st qn beh).1).error_message = st.error_message ∧
    (∀ qn' beh',
      (((process_question_step ((score_single_question st qn beh).1) qn' beh').1).questions qn).bind
        (fun q => q.score) = some 3) := by
  have hb : 1 ≤ qn ∧ qn ≤ 30 := ⟨h1, h2⟩
  have hg3 : get_question_score beh = 3 := by
    simp only [clientFailure] at hfail
    cases hsub : beh.submit with
    | exc m => simp [get_question_score, hsub]
    | ok sr =>
      simp only [hsub] at hfail
      cases hsuc : sr.success with
      | false => simp [get_question_score, hsub, hsuc]
      | true =>
        rw [if_pos hsuc] at hfail
        cases hpoll : beh.poll with
        | exc m => simp [get_question_score, hsub, hsuc, hpoll]
        | ok pr =>
          simp only [hpoll] at hfail
          cases hps : pr.success with
          | false => simp [get_question_score, hsub, hsuc, hpoll, hps]
          | true =>
            cases hpred : (pr.status == some "Predicted") with
            | true => rw [hps, hpred] at hfail; simp at hfail
            | false => simp [get_question_score, hsub, hsuc, hpoll, hps, hpred]
  have hssq : score_single_question st qn beh =
      (let catIdx : Fin 5 := ⟨categoryIndexOfQn qn, categoryIndexOfQn_lt_5 hb.2⟩
       let st1 := ensureCat st catIdx
       let st2 := setQuestion st1 qn ⟨baseQuestion qn, some (get_question_score beh), none, none⟩
       let st3 := setCat st2 catIdx (some (catVal st2 catIdx + get_question_score beh))
       ({ st3 with
          total_score := st3.total_score + get_question_score beh,
          processed_questions := st3.processed_questions + 1,
          status := if st3.processed_questions + 1 ≥ 30 then "done" else "running" },
        .ok (some (get_question_score beh)))) := by
    simp only [score_single_question]
    rw [dif_pos hb]
    simp only [hq]
  have hstat : ((score_single_question st qn beh).1).status =
      (if st.processed_questions + 1 ≥ 30 then "done" else "running") := by
    rw [hssq]
    simp
  refine ⟨hg3, ?_, ?_, ?_, ?_, hstat, ?_, ?_, ?_⟩
  · rw [hssq, hg3]
  · rw [hssq]
    simp [hg3]
  · rw [hssq]
    simp [hg3]
  · rw [hssq]
    simp
  · rw [hstat]
    split <;> decide
  · rw [hssq]
    simp
  · intro qn' beh'
    apply process_question_step_score_preserved
    rw [hssq]
    simp [hg3]

/-- Witness for C10: with a dead client on question 30 of a job with 29
questions processed, the default 3 is persisted and the job finishes `done`. -/
theorem one_shot_defaults_on_failure_witness :
    (score_single_question
      { press_release_text := [], population_id := "pop", total_score := 87, status := "running",
        processed_questions := 29, error_message := none, cats := fun _ => none,
        questions := fun _ => none }
      30 ⟨.exc "net down", .exc "net down"⟩).1.status = "done" := by
  have h := one_shot_defaults_on_failure ⟨.exc "net down", .exc "net down"⟩
    { press_release_text := [], population_id := "pop", total_score := 87, status := "running",
      processed_questions := 29, error_message := none, cats := fun _ => none,
      questions := fun _ => none }
    30 (by norm_num) (by norm_num) (by simp) (by decide)
  rw [h.2.2.2.2.2.1]
  decide

/-! ## Headline preference extraction (Claim C9) -/

lemma prefLoop_eq_sums : ∀ (l : List (String × Rat)) (ts tp : Rat),
    prefLoop l ts tp =
      (ts + (l.map (fun q => preference_value q.1 * q.2)).sum,
       tp + (l.map (fun q => q.2)).sum) := by
  intro l
  induction l with
  | nil => intro ts tp; simp [prefLoop]
  | cons q rest ih =>
    intro ts tp
    obtain ⟨a, p⟩ := q
    simp only [prefLoop, ih, List.map_cons, List.sum_cons, Prod.mk.injEq]
    constructor <;> ring

/-- Claim C9: for non-empty percentage maps over the five ordinal options with
positive total weight, the extracted preference is the weighted average
`Σ(option_value × option_percentage) / Σ(option_percentage)` rounded to 2
decimals; absent or empty percentages yield the neutral 3.0; and whenever the
submission or polling fails, `_test_single_headline_simple` completes the
record with the fallback score 3.0 instead of failing it. -/
theorem extract_preference_score_spec :
    (∀ (ps : List (String × Rat)), ps ≠ [] →
      (∀ q ∈ ps, q.1 = "Very Appealing" ∨ q.1 = "Appealing" ∨ q.1 = "Neutral" ∨
        q.1 = "Not Appealing" ∨ q.1 = "Very Unappealing") →
      0 < (ps.map (fun q => q.2)).sum →
      extract_preference_score (some ps) =
        roundTo 2 ((ps.map (fun q => preference_value q.1 * q.2)).sum
          / (ps.map (fun q => q.2)).sum)) ∧
    extract_preference_score none = 3 ∧
    extract_preference_score (some []) = 3 ∧
    (∀ (rec : HScore) (beh : StepBeh), clientFailure beh = true →
      (test_single_headline_simple rec beh).total_score = some 3 ∧
      (test_single_headline_simple rec beh).status = "completed") := by
  refine ⟨?_, rfl, rfl, ?_⟩
  · intro ps hne hlabels hpos
    simp only [extract_preference_score, if_neg hne, prefLoop_eq_sums, zero_add]
    rw [if_pos hpos]
  · intro rec beh hcf
    simp only [clientFailure] at hcf
    cases hsub : beh.submit with
    | exc m => simp [test_single_headline_simple, hsub, set_fallback_score]
    | ok sr =>
      simp only [hsub] at hcf
      by_cases hok : (sr.success && !answerIdBlank sr.answer_id) = true
      · have hsuc : sr.success = true := by
          cases h' : sr.success
          · rw [h'] at hok; simp at hok
          · rfl
        rw [if_pos hsuc] at hcf
        cases hpoll : beh.poll with
        | exc m => simp [test_single_headline_simple, hsub, hok, hpoll, set_fallback_score]
        | ok pr =>
          simp only [hpoll] at hcf
          have hc : (pr.success && pr.status == some "Predicted") = false := by
            cases hps : pr.success
            · simp [hps]
            · rw [hps] at hcf
              simp only [Bool.not_true, Bool.false_or] at hcf
              cases hpred : (pr.status == some "Predicted")
              · simp [hps, hpred]
              · rw [hpred] at hcf; simp at hcf
          simp [test_single_headline_simple, hsub, hok, hpoll, hc, set_fallback_score]
      · simp [test_single_headline_simple, hsub, set_fallback_score, hok]

/-- Witness for C9: 60% Very Appealing and 40% Neutral give the weighted
preference (5·60 + 3·40)/100 = 4.2. -/
theorem extract_preference_score_spec_witness :
    extract_preference_score (some [("Very Appealing", (60 : Rat)), ("Neutral", 40)]) = 21 / 5 := by
  have h := extract_preference_score_spec.1 [("Very Appealing", (60 : Rat)), ("Neutral", 40)]
    (by decide) (by decide) (by norm_num)
  rw [h]
  norm_num [preference_value, roundTo,
    show ("Neutral" : String) ≠ "Very Appealing" by decide,
    show ("Neutral" : String) ≠ "Appealing" by decide]

/-! ## Headline test completion (Claim C8) -/

lemma firstMaxByScore_mem : ∀ (l : List HScore) (b : HScore),
    firstMaxByScore l = some b → b ∈ l := by
  intro l
  induction l with
  | nil => intro b h; cases h
  | cons a rest ih =>
    intro b h
    simp only [firstMaxByScore] at h
    cases hrest : firstMaxByScore rest with
    | none =>
      simp only [hrest, Option.some.injEq] at h
      rw [← h]
      exact List.mem_cons_self _ _
    | some c =>
      simp only [hrest] at h
      by_cases hlt : optScoreLt a.total_score c.total_score = true
      · rw [if_pos hlt] at h
        simp only [Option.some.injEq] at h
        rw [← h]
        exact List.mem_cons_of_mem _ (ih c hrest)
      · rw [if_neg hlt] at h
        simp only [Option.some.injEq] at h
        rw [← h]
        exact List.mem_cons_self _ _

lemma firstMaxByScore_first_max : ∀ (l₁ : List HScore) (b : HScore) (l₂ : List HScore),
    (∀ x ∈ l₁, optScoreLt x.total_score b.total_score = true) →
    (∀ x ∈ l₂, optScoreLt b.total_score x.total_score = false) →
    firstMaxByScore (l₁ ++ b :: l₂) = some b := by
  intro l₁
  induction l₁ with
  | nil =>
    intro b l₂ _ h2
    simp only [List.nil_append, firstMaxByScore]
    cases hrest : firstMaxByScore l₂ with
    | none => simp [hrest]
    | some c =>
      have hc : c ∈ l₂ := firstMaxByScore_mem l₂ c hrest
      simp only [hrest]
      rw [if_neg (by simp [h2 c hc])]
  | cons a rest ih =>
    intro b l₂ h1 h2
    have hab : optScoreLt a.total_score b.total_score = true :=
      h1 a (List.mem_cons_self _ _)
    have hrec : firstMaxByScore (rest ++ b :: l₂) = some b :=
      ih b l₂ (fun x hx => h1 x (List.mem_cons_of_mem _ hx)) h2
    rw [List.cons_append]
    simp only [firstMaxByScore, hrec]
    rw [if_pos hab]

lemma count_complete_or_failed (l : List HScore)
    (hall : ∀ s ∈ l, s.status = "completed" ∨ s.status = "failed") :
    (l.filter (fun s => s.status == "completed")).length
      + (l.filter (fun s => s.status == "failed")).length ≥ l.length := by
  induction l with
  | nil => simp
  | cons a rest ih =>
    have hrest := ih (fun s hs => hall s (List.mem_cons_of_mem _ hs))
    rcases hall a (List.mem_cons_self _ _) with h | h
    · simp only [List.filter_cons, h,
        show (("completed" : String) == "completed") = true by decide,
        show (("completed" : String) == "failed") = false by decide]
      simp only [if_true, Bool.false_eq_true, if_false, List.length_cons]
      omega
    · simp only [List.filter_cons, h,
        show (("failed" : String) == "completed") = false by decide,
        show (("failed" : String) == "failed") = true by decide]
      simp only [if_true, Bool.false_eq_true, if_false, List.length_cons]
      omega

/-- Claim C8: once every score row of a test in status `testing` is completed
or failed (and there is at least one row), the test is marked completed, the
winner is the completed row with the highest preference score — ties broken by
creation order, first created wins — and when the completed original row has a
positive score `oq` and the winner scores `w`, the recorded improvement is
`(w - oq) / oq × 100` rounded to 1 decimal. -/
theorem check_and_update_test_completion_spec (t : HTest) (l₁ : List HScore) (b : HScore)
    (l₂ : List HScore)
    (htesting : t.status = "testing")
    (hne : t.scores ≠ [])
    (hall : ∀ s ∈ t.scores, s.status = "completed" ∨ s.status = "failed")
    (hcomp : t.scores.filter (fun s => s.status == "completed") = l₁ ++ b :: l₂)
    (hl1 : ∀ x ∈ l₁, optScoreLt x.total_score b.total_score = true)
    (hl2 : ∀ x ∈ l₂, optScoreLt b.total_score x.total_score = false) :
    (check_and_update_test_completion t).status = "completed" ∧
    (check_and_update_test_completion t).winning_headline = some b.headline_text ∧
    (check_and_update_test_completion t).winning_score = b.total_score ∧
    (∀ o oq w, (l₁ ++ b :: l₂).filter (fun s => s.is_original) = [o] →
      o.total_score = some oq → 0 < oq → b.total_score = some w →
      (check_and_update_test_completion t).original_score = some oq ∧
      (check_and_update_test_completion t).improvement_percentage =
        some (roundTo 1 ((w - oq) / oq * 100))) := by
  have hcount := count_complete_or_failed t.scores hall
  rw [hcomp] at hcount
  have hpos : 0 < t.scores.length := List.length_pos.mpr hne
  have hbase : check_and_update_test_completion t =
      (let t2 : HTest :=
        { t with status := "completed", winning_headline := some b.headline_text,
                 winning_score := b.total_score }
       match firstMaxByScore ((l₁ ++ b :: l₂).filter (fun s => s.is_original)) with
       | some o =>
         match o.total_score with
         | some oq =>
           let t3 : HTest := { t2 with original_score := some oq }
           if 0 < oq then
             match b.total_score with
             | some w =>
               { t3 with improvement_percentage := some (roundTo 1 ((w - oq) / oq * 100)) }
             | none => t3
           else t3
         | none => t2
       | none => t2) := by
    simp only [check_and_update_test_completion]
    rw [if_neg (by simp [htesting]), hcomp]
    rw [if_pos ⟨hcount, hpos⟩, firstMaxByScore_first_max l₁ b l₂ hl1 hl2]
  rw [hbase]
  cases horig : firstMaxByScore ((l₁ ++ b :: l₂).filter (fun s => s.is_original)) with
  | none =>
    refine ⟨by simp, by simp, by simp, ?_⟩
    intro o oq w hfo ho hoq hw
    rw [hfo] at horig
    simp [firstMaxByScore] at horig
  | some o' =>
    cases hos : o'.total_score with
    | none =>
      refine ⟨by simp [hos], by simp [hos], by simp [hos], ?_⟩
      intro o oq w hfo ho hoq hw
      rw [hfo] at horig
      simp only [firstMaxByScore, Option.some.injEq] at horig
      have ho' : o'.total_score = some oq := horig ▸ ho
      rw [ho'] at hos
      cases hos
    | some oq' =>
      by_cases hoqpos : 0 < oq'
      · cases hw' : b.total_score with
        | none =>
          refine ⟨by simp [hos, hoqpos, hw'], by simp [hos, hoqpos, hw'],
            by simp [hos, hoqpos, hw'], ?_⟩
          intro o oq w hfo ho hoq hw
          simp at hw
        | some w' =>
          refine ⟨by simp [hos, hoqpos, hw'], by simp [hos, hoqpos, hw'],
            by simp [hos, hoqpos, hw'], ?_⟩
          intro o oq w hfo ho hoq hw
          rw [hfo] at horig
          simp only [firstMaxByScore, Option.some.injEq] at horig
          have ho' : o'.total_score = some oq := horig ▸ ho
          have hoq'eq : oq' = oq := by
            rw [ho'] at hos
            exact (Option.some.inj hos).symm
          have hw'eq : w' = w := Option.some.inj hw
          subst hoq'eq
          subst hw'eq
          exact ⟨by simp [hos, hoqpos], by simp [hos, hoqpos]⟩
      · refine ⟨by simp [hos, hoqpos], by simp [hos, hoqpos], by simp [hos, hoqpos], ?_⟩
        intro o oq w hfo ho hoq hw
        rw [hfo] at horig
        simp only [firstMaxByScore, Option.some.injEq] at horig
        have ho' : o'.total_score = some oq := horig ▸ ho
        have hoq'eq : oq' = oq := by
          rw [ho'] at hos
          exact (Option.some.inj hos).symm
        rw [hoq'eq] at hoqpos
        exact absurd hoq hoqpos

/-- Witness for C8: the spec's scenario — five variants scoring 4.2, 3.8, 4.5,
2.1, 3.0 and a completed original scoring 3.5 — completes with winner `H3`
(4.5) and improvement (4.5 − 3.5)/3.5 × 100 = 28.6, i.e. 143/5. -/
theorem check_and_update_test_completion_spec_witness :
    (check_and_update_test_completion
      { status := "testing",
        scores :=
          [ ⟨"H1", false, "completed", some (21/5)⟩, ⟨"H2", false, "completed", some (19/5)⟩,
            ⟨"H3", false, "completed", some (9/2)⟩, ⟨"H4", false, "completed", some (21/10)⟩,
            ⟨"H5", false, "completed", some 3⟩, ⟨"orig", true, "completed", some (7/2)⟩ ],
        winning_headline := none, winning_score := none, original_score := none,
        improvement_percentage := none, error_message := none }).winning_headline = some "H3" ∧
    (check_and_update_test_completion
      { status := "testing",
        scores :=
          [ ⟨"H1", false, "completed", some (21/5)⟩, ⟨"H2", false, "completed", some (19/5)⟩,
            ⟨"H3", false, "completed", some (9/2)⟩, ⟨"H4", false, "completed", some (21/10)⟩,
            ⟨"H5", false, "completed", some 3⟩, ⟨"orig", true, "completed", some (7/2)⟩ ],
        winning_headline := none, winning_score := none, original_score := none,
        improvement_percentage := none, error_message := none }).improvement_percentage =
      some (143/5) := by
  have h := check_and_update_test_completion_spec
    { status := "testing",
      scores :=
        [ ⟨"H1", false, "completed", some (21/5)⟩, ⟨"H2", false, "completed", some (19/5)⟩,
          ⟨"H3", false, "completed", some (9/2)⟩, ⟨"H4", false, "completed", some (21/10)⟩,
          ⟨"H5", false, "completed", some 3⟩, ⟨"orig", true, "completed", some (7/2)⟩ ],
      winning_headline := none, winning_score := none, original_score := none,
      improvement_percentage := none, error_message := none }
    [⟨"H1", false, "completed", some (21/5)⟩, ⟨"H2", false, "completed", some (19/5)⟩]
    ⟨"H3", false, "completed", some (9/2)⟩
    [⟨"H4", false, "completed", some (21/10)⟩, ⟨"H5", false, "completed", some 3⟩,
     ⟨"orig", true, "completed", some (7/2)⟩]
    rfl (by simp) (by simp)
    rfl
    (by
      intro x hx
      simp only [List.mem_cons, List.not_mem_nil, or_false] at hx
      rcases hx with rfl | rfl <;>
        simp only [optScoreLt, decide_eq_true_eq] <;> norm_num)
    (by
      intro x hx
      simp only [List.mem_cons, List.not_mem_nil, or_false] at hx
      rcases hx with rfl | rfl | rfl <;>
        simp only [optScoreLt, decide_eq_false_iff_not] <;> norm_num)
  refine ⟨h.2.1, ?_⟩
  have h4 := (h.2.2.2 ⟨"orig", true, "completed", some (7/2)⟩ (7/2) (9/2)
    rfl rfl (by norm_num) rfl).2
  rw [h4]
  norm_num [roundTo]
